import Mathlib

/-!
Verification development for the OES-Expense approval application.

The definitions below are a shallow embedding of the application's data
model and of its status-changing operations:

* the enumerated types, table schemas and row-level-security (RLS)
  predicates come from the SQL migrations (`supabase/migrations/...` and
  the later security-fix migration);
* the client mutations come from `src/pages/ExpenseForm.tsx`
  (`handleSubmit`, `uploadFiles`), `src/pages/Approvals.tsx`
  (`approveMutation`, `rejectMutation`, advance mutations),
  `src/pages/Payments.tsx` (`markAsPaidMutation`) and
  `src/pages/Users.tsx` (`addRoleMutation`);
* role resolution comes from the `useUserRole` hook and `AuthProvider`.

A Postgres `UPDATE ... WHERE id = x` under permissive RLS policies
updates exactly the rows that match the WHERE clause and at least one
policy's USING predicate; rows failing the policies are silently skipped
(no error).  This is modelled by mapping a conditional transformer over
the table.
-/

namespace OES

/-- The `user_role` enum from the initial migration. -/
inductive Role
  | employee
  | manager
  | owner
  | accounts
deriving DecidableEq

/-- The `expense_status` enum from the initial migration. -/
inductive ExpenseStatus
  | draft
  | submitted
  | reviewed
  | manager_approved
  | manager_rejected
  | owner_approved
  | owner_rejected
  | pending_payment
  | paid
deriving DecidableEq

/-- The `advance_status` enum from the advance-requests migration. -/
inductive AdvanceStatus
  | pending
  | approved
  | rejected
  | disbursed
deriving DecidableEq

abbrev UserId := Nat

/-- The `user_roles` table up to surrogate row ids: each row is a
`(user_id, role)` pair; `UNIQUE(user_id, role)` makes the list
duplicate-free. -/
abbrev UserRolesTable := List (UserId × Role)

/-- `public.has_role(_user_id, _role)`: `EXISTS` a matching row in
`user_roles`. -/
def has_role (ur : UserRolesTable) (u : UserId) (r : Role) : Bool :=
  decide ((u, r) ∈ ur)

/-- Database error surfaced by the store (here: unique-key violation on
`user_roles`). -/
inductive DbError
  | duplicateKey
deriving DecidableEq

/-- `INSERT INTO user_roles (user_id, role) VALUES (u, r)` honouring the
`UNIQUE(user_id, role)` constraint: a duplicate pair is rejected with a
duplicate-key error and nothing is written.  This is the store-side
effect of `addRoleMutation` in `Users.tsx`, which inserts without a
pre-check and surfaces the error. -/
def insertUserRole (ur : UserRolesTable) (u : UserId) (r : Role) :
    Except DbError UserRolesTable :=
  if (u, r) ∈ ur then .error .duplicateKey else .ok (ur ++ [(u, r)])

/-- A row of the `expenses` table (fields from the initial migration). -/
structure Expense where
  id : Nat
  user_id : UserId
  title : String
  description : Option String := none
  amount : Rat
  category : String
  expense_date : String
  status : ExpenseStatus
  reviewed_by : Option UserId := none
  reviewed_at : Option Nat := none
  manager_approved_by : Option UserId := none
  manager_approved_at : Option Nat := none
  manager_rejection_reason : Option String := none
  owner_approved_by : Option UserId := none
  owner_approved_at : Option Nat := none
  owner_rejection_reason : Option String := none
  payment_reference : Option String := none
  paid_at : Option Nat := none
  paid_by : Option UserId := none
deriving DecidableEq

/-- A row of the `expense_status_logs` table. -/
structure StatusLog where
  expense_id : Nat
  status : ExpenseStatus
  changed_by : UserId
  notes : Option String := none
deriving DecidableEq

/-- A row of the `expense_files` table (the fields the claims need). -/
structure FileRow where
  expense_id : Nat
  file_name : String
  uploaded_by : UserId
  file_category : String
deriving DecidableEq

/-- The persisted state the expense operations touch. -/
structure Db where
  expenses : List Expense
  logs : List StatusLog
  files : List FileRow
deriving DecidableEq

/-- The four permissive SELECT policies on `expenses`:
"Users can view own expenses", "Managers can view submitted expenses",
"Owners can view all expenses", "Accounts can view approved expenses".
A row is visible iff some policy's USING predicate holds. -/
def canSelectExpense (ur : UserRolesTable) (uid : UserId) (e : Expense) : Bool :=
  decide (e.user_id = uid)
    || (has_role ur uid .manager &&
        decide (e.status ∈ [ExpenseStatus.submitted, .reviewed, .manager_approved,
          .manager_rejected]))
    || has_role ur uid .owner
    || (has_role ur uid .accounts &&
        decide (e.status ∈ [ExpenseStatus.owner_approved, .pending_payment, .paid]))

/-- The four permissive UPDATE policies on `expenses`:
"Users can update own draft expenses" (owner-of-row AND status draft),
"Managers can update submitted expenses", "Owners can update manager
approved expenses", "Accounts can update owner approved expenses".
Note that the USING predicates of the last three check only the role:
the migration puts no status condition in them, despite the policy
names. -/
def canUpdateExpense (ur : UserRolesTable) (uid : UserId) (e : Expense) : Bool :=
  (decide (uid = e.user_id) && decide (e.status = ExpenseStatus.draft))
    || has_role ur uid .manager
    || has_role ur uid .owner
    || has_role ur uid .accounts

/-- An `UPDATE` on `expenses` under RLS: rows matching the query filter
and passing some UPDATE policy are transformed; all others are left
unchanged (no error is raised for skipped rows). -/
def rlsUpdateExpenses (ur : UserRolesTable) (uid : UserId)
    (q : Expense → Bool) (f : Expense → Expense) (l : List Expense) : List Expense :=
  l.map fun e => if q e && canUpdateExpense ur uid e then f e else e

/-- A client SELECT on `expenses`: the store returns the rows passing
the SELECT policies and the query's own filter. -/
def selectExpenses (ur : UserRolesTable) (uid : UserId)
    (q : Expense → Bool) (db : Db) : List Expense :=
  db.expenses.filter fun e => canSelectExpense ur uid e && q e

/-- `approveMutation` from `Approvals.tsx`: sets the status and the
stage's approved-by/approved-at fields chosen from `primaryRole`, with
`.eq('id', expenseId)` as the only filter — there is no status
condition and no status-log insert. -/
def approveMutation (ur : UserRolesTable) (uid : UserId) (primaryRole : Role)
    (now : Nat) (expenseId : Nat) (db : Db) : Db :=
  let f : Expense → Expense := fun e =>
    if primaryRole = .manager then
      { e with status := .manager_approved,
               manager_approved_by := some uid, manager_approved_at := some now }
    else
      { e with status := .owner_approved,
               owner_approved_by := some uid, owner_approved_at := some now }
  { db with expenses :=
      rlsUpdateExpenses ur uid (fun e => decide (e.id = expenseId)) f db.expenses }

/-- `rejectMutation` from `Approvals.tsx`: sets the status and the
stage's rejection-reason field to the reason passed by the caller, with
`.eq('id', expenseId)` as the only filter.  The reject button handler
passes the textarea content through unchecked (its placeholder reads
"Enter rejection reason (optional)"), and no status-log row is
inserted. -/
def rejectMutation (ur : UserRolesTable) (uid : UserId) (primaryRole : Role)
    (reason : String) (expenseId : Nat) (db : Db) : Db :=
  let f : Expense → Expense := fun e =>
    if primaryRole = .manager then
      { e with status := .manager_rejected, manager_rejection_reason := some reason }
    else
      { e with status := .owner_rejected, owner_rejection_reason := some reason }
  { db with expenses :=
      rlsUpdateExpenses ur uid (fun e => decide (e.id = expenseId)) f db.expenses }

/-- `markAsPaidMutation` from `Payments.tsx`: sets status `paid`,
`paid_by`, `paid_at` and `payment_reference`, with `.eq('id',
expenseId)` as the only filter and no status-log insert. -/
def markAsPaidMutation (ur : UserRolesTable) (uid : UserId) (now : Nat)
    (expenseId : Nat) (reference : String) (db : Db) : Db :=
  let f : Expense → Expense := fun e =>
    { e with status := .paid, paid_by := some uid, paid_at := some now,
             payment_reference := some reference }
  { db with expenses :=
      rlsUpdateExpenses ur uid (fun e => decide (e.id = expenseId)) f db.expenses }

/-- JavaScript `String.prototype.trim` (whitespace stripping from both
ends), as applied by the form code and by the zod `.trim()` transform;
written over the character list so that it evaluates on concrete
inputs. -/
def strTrim (s : String) : String :=
  String.mk
    (((s.data.dropWhile Char.isWhitespace).reverse.dropWhile Char.isWhitespace).reverse)

/-- The `expenseSchema` zod validation in `ExpenseForm.tsx`: trimmed
title of length at least 3, positive amount, non-empty category and
expense date (the description is optional). -/
structure ExpenseFields where
  title : String
  description : String
  amount : Rat
  category : String
  expense_date : String
deriving DecidableEq

/-- Whether `expenseSchema.parse` succeeds on the form fields. -/
def validateExpense (f : ExpenseFields) : Bool :=
  decide (3 ≤ (strTrim f.title).length) && decide (0 < f.amount)
    && decide (f.category ≠ "") && decide (f.expense_date ≠ "")

/-- The status written by `handleSubmit`: `'submitted'` when the user
pressed "Submit for Approval", `'draft'` for "Save as Draft". -/
def newStatusOf (shouldSubmit : Bool) : ExpenseStatus :=
  if shouldSubmit then .submitted else .draft

/-- The notes string of the status-log row written by `handleSubmit`. -/
def submitNotes (shouldSubmit : Bool) : String :=
  if shouldSubmit then "Expense submitted for review" else "Expense saved as draft"

/-- The field update performed by the `handleSubmit` update branch: the
validated (trimmed) fields plus the new status. -/
def applyExpenseFields (f : ExpenseFields) (st : ExpenseStatus) (e : Expense) : Expense :=
  { e with
    title := strTrim f.title,
    description := if strTrim f.description = "" then none else some (strTrim f.description),
    amount := f.amount,
    category := f.category,
    expense_date := f.expense_date,
    status := st }

/-- The row built by the `handleSubmit` create branch. -/
def newExpense (i : Nat) (uid : UserId) (f : ExpenseFields) (st : ExpenseStatus) : Expense :=
  { id := i, user_id := uid,
    title := strTrim f.title,
    description := if strTrim f.description = "" then none else some (strTrim f.description),
    amount := f.amount,
    category := f.category,
    expense_date := f.expense_date,
    status := st }

/-- `uploadFiles` from `ExpenseForm.tsx`: uploads each chosen file in
order (storage upload then `expense_files` insert) and throws on the
first failure, leaving the earlier files persisted.  Each file carries
the outcome of its upload as a boolean (`false` models a storage or
insert error). -/
def uploadFiles (uid : UserId) (expenseId : Nat) :
    List (String × Bool) → Db → Except Unit Db
  | [], db => .ok db
  | (name, ok) :: rest, db =>
    if ok then
      uploadFiles uid expenseId rest
        { db with files := db.files ++
            [{ expense_id := expenseId, file_name := name,
               uploaded_by := uid, file_category := "bill" }] }
    else .error ()

/-- `handleSubmit` from `ExpenseForm.tsx`.  In source order it
1. validates the form fields (aborting with a toast on failure),
2. updates the existing row — or inserts a new one — with the validated
   fields and status `submitted`/`draft`,
3. uploads the chosen files, aborting to the catch block on the first
   failure (the row written in step 2 is not rolled back),
4. only if every upload succeeded, inserts one `expense_status_logs`
   row recording the written status. -/
def handleSubmit (ur : UserRolesTable) (uid : UserId) (existing : Option Nat)
    (f : ExpenseFields) (shouldSubmit : Bool) (files : List (String × Bool))
    (newId : Nat) (db : Db) : Db :=
  if validateExpense f then
    let st := newStatusOf shouldSubmit
    let step : Db × Nat :=
      match existing with
      | some i =>
        let es := rlsUpdateExpenses ur uid (fun e => decide (e.id = i))
          (applyExpenseFields f st) db.expenses
        ({ db with expenses := es }, i)
      | none =>
        ({ db with expenses := db.expenses ++ [newExpense newId uid f st] }, newId)
    match uploadFiles uid step.2 files step.1 with
    | .error _ => step.1
    | .ok db2 =>
      { db2 with logs := db2.logs ++
          [{ expense_id := step.2, status := st, changed_by := uid,
             notes := some (submitNotes shouldSubmit) }] }
  else db

/-- A row of the `advance_requests` table. -/
structure Advance where
  id : Nat
  user_id : UserId
  amount : Rat
  reason : String
  status : AdvanceStatus
  reviewed_by : Option UserId := none
  reviewed_at : Option Nat := none
  rejection_reason : Option String := none
  disbursed_by : Option UserId := none
  disbursed_at : Option Nat := none
  payment_reference : Option String := none
deriving DecidableEq

/-- The permissive UPDATE policies on `advance_requests`:
"Managers can update advance requests" (manager or owner role, no
status condition) and "Accounts can update approved advances"
(accounts role and status in approved/disbursed). -/
def canUpdateAdvance (ur : UserRolesTable) (uid : UserId) (a : Advance) : Bool :=
  (has_role ur uid .manager || has_role ur uid .owner)
    || (has_role ur uid .accounts &&
        decide (a.status ∈ [AdvanceStatus.approved, .disbursed]))

/-- An `UPDATE` on `advance_requests` under RLS. -/
def rlsUpdateAdvances (ur : UserRolesTable) (uid : UserId)
    (q : Advance → Bool) (f : Advance → Advance) (l : List Advance) : List Advance :=
  l.map fun a => if q a && canUpdateAdvance ur uid a then f a else a

/-- `approveAdvanceMutation` from the approvals page: sets status
`approved` and the reviewer fields, filtering by id only. -/
def approveAdvanceMutation (ur : UserRolesTable) (uid : UserId) (now : Nat)
    (advanceId : Nat) (l : List Advance) : List Advance :=
  rlsUpdateAdvances ur uid (fun a => decide (a.id = advanceId))
    (fun a => { a with status := .approved, reviewed_by := some uid,
                       reviewed_at := some now }) l

/-- `rejectAdvanceMutation` from the approvals page: sets status
`rejected`, the reviewer fields and the rejection reason, filtering by
id only. -/
def rejectAdvanceMutation (ur : UserRolesTable) (uid : UserId) (now : Nat)
    (reason : String) (advanceId : Nat) (l : List Advance) : List Advance :=
  rlsUpdateAdvances ur uid (fun a => decide (a.id = advanceId))
    (fun a => { a with status := .rejected, reviewed_by := some uid,
                       reviewed_at := some now,
                       rejection_reason := some reason }) l

/-- Modelled from the spec: `src/` contains no client disburse
operation for advances (only the "Accounts can update approved
advances" policy); the spec's `approved → disbursed` by the accounts
role is modelled as the corresponding status update executed under the
`advance_requests` RLS policies of the migration. -/
def disburseAdvance (ur : UserRolesTable) (uid : UserId) (now : Nat)
    (reference : String) (advanceId : Nat) (l : List Advance) : List Advance :=
  rlsUpdateAdvances ur uid (fun a => decide (a.id = advanceId))
    (fun a => { a with status := .disbursed, disbursed_by := some uid,
                       disbursed_at := some now,
                       payment_reference := some reference }) l

/-- The role list produced by the `user_roles` select in the
`useUserRole` hook and in `AuthProvider.fetchRoles`: on a storage
error both set the roles to the empty list; on success they map the
returned rows to their `role` column. -/
def fetchRolesResult (res : Except String (List Role)) : List Role :=
  match res with
  | .error _ => []
  | .ok data => data

/-- `primaryRole` from the `useUserRole` hook:
`roles[0] || 'employee'`. -/
def primaryRoleOf (roles : List Role) : Role :=
  roles.headD .employee

/-- `hasRole` from the `useUserRole` hook: `roles.includes(role)`. -/
def hasRoleHook (roles : List Role) (r : Role) : Bool :=
  decide (r ∈ roles)

/-- An `auth.users` row as seen by the sign-up trigger: id, email and
the client-supplied `raw_user_meta_data` fields. -/
structure NewUser where
  id : UserId
  email : String
  meta_full_name : Option String := none
  meta_role : Option Role := none
deriving DecidableEq

/-- A row of the `profiles` table (the fields the sign-up trigger
writes). -/
structure ProfileRow where
  id : UserId
  full_name : String
  email : String
deriving DecidableEq

/-- The tables the sign-up trigger writes. -/
structure AuthDb where
  profiles : List ProfileRow
  user_roles : UserRolesTable
deriving DecidableEq

/-- `handle_new_user` as replaced by the security-fix migration: the
profile is created from the metadata, and the role row inserted is
always `employee` — the client-supplied metadata role is ignored. -/
def handle_new_user (u : NewUser) (db : AuthDb) : AuthDb :=
  { profiles := db.profiles ++
      [{ id := u.id, full_name := u.meta_full_name.getD "User", email := u.email }],
    user_roles := db.user_roles ++ [(u.id, Role.employee)] }

/-- The superseded `handle_new_user` of the initial migration, kept for
comparison: it COALESCEd the client-supplied metadata role with
`employee`, so a client could pick its own role.  The security-fix
migration's `CREATE OR REPLACE` makes `handle_new_user` above the
version in force. -/
def handle_new_user_original (u : NewUser) (db : AuthDb) : AuthDb :=
  { profiles := db.profiles ++
      [{ id := u.id, full_name := u.meta_full_name.getD "User", email := u.email }],
    user_roles := db.user_roles ++ [(u.id, u.meta_role.getD Role.employee)] }

/-! ### Helper lemmas -/

/-- Mapping a function that fixes every element of a list leaves the
list unchanged (an RLS update whose policy rejects every matching row
is a no-op). -/
theorem map_eq_self_of_fixed {α : Type} (g : α → α) :
    ∀ l : List α, (∀ a ∈ l, g a = a) → l.map g = l := by
  intro l
  induction l with
  | nil => intro _; rfl
  | cons a rest ih =>
    intro h
    have ha := h a (List.mem_cons_self a rest)
    have hr := ih fun b hb => h b (List.mem_cons_of_mem a hb)
    simp [ha, hr]

/-- When every upload outcome is a success, `uploadFiles` returns
normally and touches only the `expense_files` table: the expenses and
the status logs of the resulting state are those it was given. -/
theorem uploadFiles_all_ok (uid : UserId) (eid : Nat)
    (files : List (String × Bool)) :
    ∀ db : Db, files.all (fun p => p.2) = true →
      ∃ db', uploadFiles uid eid files db = .ok db' ∧
        db'.logs = db.logs ∧ db'.expenses = db.expenses := by
  induction files with
  | nil => intro db _; exact ⟨db, rfl, rfl, rfl⟩
  | cons p rest ih =>
    obtain ⟨name, ok⟩ := p
    intro db h
    rw [List.all_cons, Bool.and_eq_true] at h
    obtain ⟨hok, hrest⟩ := h
    have hok' : ok = true := hok
    subst hok'
    obtain ⟨db', hEq, hLogs, hExp⟩ := ih
      { db with files := db.files ++
          [{ expense_id := eid, file_name := name,
             uploaded_by := uid, file_category := "bill" }] } hrest
    refine ⟨db', ?_, hLogs, hExp⟩
    simpa [uploadFiles] using hEq

/-! ### Claim C5 -/

/-- Claim C5: an actor whose role set contains only `employee` never
receives, from an expenses query, a row whose `user_id` differs from
their own id: of the four SELECT policies, the three role-based ones
are unavailable to them, so only "Users can view own expenses" can let
a row through. -/
theorem C5_employee_reads_only_own (ur : UserRolesTable) (uid : UserId)
    (q : Expense → Bool) (db : Db) (e : Expense)
    (honly : ∀ r : Role, (uid, r) ∈ ur → r = Role.employee)
    (hmem : e ∈ selectExpenses ur uid q db) :
    e.user_id = uid := by
  obtain ⟨-, hcond⟩ := List.mem_filter.mp hmem
  rw [Bool.and_eq_true] at hcond
  have hsel := hcond.1
  simp only [canSelectExpense, has_role, Bool.or_eq_true, Bool.and_eq_true,
    decide_eq_true_eq] at hsel
  rcases hsel with ((hown | ⟨hm, -⟩) | ho) | ⟨ha, -⟩
  · exact hown
  · have := honly _ hm
    simp at this
  · have := honly _ ho
    simp at this
  · have := honly _ ha
    simp at this

/-- Fixtures for the C5 witness: a pure employee and one own expense. -/
def urC5 : UserRolesTable := [(5, Role.employee)]

def expC5 : Expense :=
  { id := 1, user_id := 5, title := "Team lunch", amount := 500,
    category := "Food & Dining", expense_date := "2026-10-01",
    status := ExpenseStatus.draft }

def dbC5 : Db := { expenses := [expC5], logs := [], files := [] }

theorem C5_employee_reads_only_own_witness :
    (∀ r : Role, ((5 : UserId), r) ∈ urC5 → r = Role.employee) ∧
    expC5 ∈ selectExpenses urC5 5 (fun _ => true) dbC5 ∧
    expC5.user_id = 5 := by
  have honly : ∀ r : Role, ((5 : UserId), r) ∈ urC5 → r = Role.employee := by
    intro r hr
    simp [urC5] at hr
    exact hr
  have hmem : expC5 ∈ selectExpenses urC5 5 (fun _ => true) dbC5 := by
    simp [selectExpenses, dbC5, canSelectExpense, has_role, urC5, expC5]
  exact ⟨honly, hmem, C5_employee_reads_only_own urC5 5 _ dbC5 expC5 honly hmem⟩

/-! ### Claim C6 -/

/-- Claim C6: the sign-up trigger (in its security-fixed form, the
version in force after the later migration) always inserts exactly the
role `employee` for the new user — the client-supplied metadata role is
ignored — so every new user holds at least one role and cannot
self-register with an elevated role. -/
theorem C6_signup_always_assigns_employee (u : NewUser) (db : AuthDb) :
    (handle_new_user u db).user_roles = db.user_roles ++ [(u.id, Role.employee)] ∧
    (∀ r : Option Role, handle_new_user { u with meta_role := r } db
      = handle_new_user u db) ∧
    has_role (handle_new_user u db).user_roles u.id Role.employee = true := by
  refine ⟨rfl, fun r => rfl, ?_⟩
  simp [has_role, handle_new_user]

/-! ### Claim C7 -/

/-- Claim C7: a role resolution that ends in a storage error produces
the empty role set (fail closed) — every hook-level role check is then
false — while the `employee` value of the primary-role selector is only
the head-of-empty-list display fallback, not a role the actor holds. -/
theorem C7_role_resolution_fails_closed (err : String) :
    fetchRolesResult (.error err) = [] ∧
    (∀ r : Role, hasRoleHook (fetchRolesResult (.error err)) r = false) ∧
    primaryRoleOf (fetchRolesResult (.error err)) = Role.employee := by
  refine ⟨rfl, fun r => ?_, rfl⟩
  simp [hasRoleHook, fetchRolesResult]

/-! ### Claim C10 -/

/-- Claim C10: under the `UNIQUE(user_id, role)` constraint each
(user, role) pair occurs at most once: inserting a role the user
already holds fails with a duplicate-key error (writing nothing), and a
successful insert keeps the table duplicate-free, with every pair
counted at most once. -/
theorem C10_user_roles_unique (ur : UserRolesTable) (u : UserId) (r : Role)
    (h : ur.Nodup) :
    ((u, r) ∈ ur → insertUserRole ur u r = .error .duplicateKey) ∧
    (∀ res, insertUserRole ur u r = .ok res →
      res.Nodup ∧ ∀ p : UserId × Role, res.countP (fun x => decide (x = p)) ≤ 1) := by
  constructor
  · intro hmem
    simp [insertUserRole, hmem]
  · intro res hres
    by_cases hmem : (u, r) ∈ ur
    · simp [insertUserRole, hmem] at hres
    · simp only [insertUserRole, if_neg hmem, Except.ok.injEq] at hres
      subst hres
      have hnd : (ur ++ [(u, r)]).Nodup := by
        rw [List.nodup_append]
        refine ⟨h, List.nodup_singleton _, ?_⟩
        intro x hx hx'
        simp only [List.mem_singleton] at hx'
        subst hx'
        exact hmem hx
      exact ⟨hnd, fun p => List.nodup_iff_count_le_one.mp hnd p⟩

theorem C10_user_roles_unique_witness :
    ([((3 : UserId), Role.employee)] : UserRolesTable).Nodup ∧
    ((((3 : UserId), Role.employee) ∈ ([((3 : UserId), Role.employee)] : UserRolesTable) →
        insertUserRole [((3 : UserId), Role.employee)] 3 Role.employee
          = .error .duplicateKey) ∧
      (∀ res, insertUserRole [((3 : UserId), Role.employee)] 3 Role.employee = .ok res →
        res.Nodup ∧ ∀ p : UserId × Role, res.countP (fun x => decide (x = p)) ≤ 1)) :=
  ⟨by decide, C10_user_roles_unique [((3 : UserId), Role.employee)] 3 Role.employee (by decide)⟩

/-! ### Claim C1 -/

/-- Fixture: a draft expense owned by user 7, about to be submitted. -/
def expC1 : Expense :=
  { id := 1, user_id := 7, title := "Team lunch", amount := 500,
    category := "Food & Dining", expense_date := "2026-10-01",
    status := ExpenseStatus.draft }

def dbC1 : Db := { expenses := [expC1], logs := [], files := [] }

def fieldsC1 : ExpenseFields :=
  { title := "Team lunch", description := "", amount := 500,
    category := "Food & Dining", expense_date := "2026-10-01" }

/-- Claim C1 (code bug): submitting the draft with one attached bill
whose upload fails leaves the expense already advanced to `submitted` —
with no file row and no status log — because `handleSubmit` writes the
row with status `submitted` before uploading the files. -/
theorem C1_upload_failure_leaves_submitted :
    ((handleSubmit [((7 : UserId), Role.employee)] 7 (some 1) fieldsC1 true
        [("bill.pdf", false)] 2 dbC1).expenses.map Expense.status
      = [ExpenseStatus.submitted]) ∧
    (handleSubmit [((7 : UserId), Role.employee)] 7 (some 1) fieldsC1 true
        [("bill.pdf", false)] 2 dbC1).logs = [] ∧
    (handleSubmit [((7 : UserId), Role.employee)] 7 (some 1) fieldsC1 true
        [("bill.pdf", false)] 2 dbC1).files = [] := by
  refine ⟨?_, ?_, ?_⟩ <;> rfl

/-! ### Claim C2 -/

/-- Claim C2 amended: the approve, reject and pay mutations never touch
the `expense_status_logs` table; only the expense form's submit appends
a log row — exactly one, recording status `submitted` — and it does so
only when validation passes and every upload succeeds. -/
theorem C2_only_form_submit_logs (ur : UserRolesTable) (uid : UserId)
    (pr : Role) (now i newId : Nat) (reason ref : String) (db : Db)
    (f : ExpenseFields) (existing : Option Nat) (files : List (String × Bool))
    (hval : validateExpense f = true) (hok : files.all (fun p => p.2) = true) :
    (approveMutation ur uid pr now i db).logs = db.logs ∧
    (rejectMutation ur uid pr reason i db).logs = db.logs ∧
    (markAsPaidMutation ur uid now i ref db).logs = db.logs ∧
    (handleSubmit ur uid existing f true files newId db).logs =
      db.logs ++ [{ expense_id := existing.getD newId,
                    status := ExpenseStatus.submitted, changed_by := uid,
                    notes := some "Expense submitted for review" }] := by
  refine ⟨rfl, rfl, rfl, ?_⟩
  unfold handleSubmit
  rw [if_pos hval]
  cases existing with
  | some j =>
    obtain ⟨db', hEq, hLogs, -⟩ := uploadFiles_all_ok uid j files
      { db with expenses := (rlsUpdateExpenses ur uid (fun e => decide (e.id = j))
          (applyExpenseFields f ExpenseStatus.submitted) db.expenses) } hok
    simp [newStatusOf, submitNotes, hEq, hLogs]
  | none =>
    obtain ⟨db', hEq, hLogs, -⟩ := uploadFiles_all_ok uid newId files
      { db with expenses := db.expenses ++ [newExpense newId uid f ExpenseStatus.submitted] }
      hok
    simp [newStatusOf, submitNotes, hEq, hLogs]

/-- Fixtures for the C2 witness and counterexample. -/
def fieldsC2 : ExpenseFields :=
  { title := "Team lunch", description := "", amount := 500,
    category := "Food & Dining", expense_date := "2026-10-01" }

def dbC2e : Db := { expenses := [], logs := [], files := [] }

theorem C2_only_form_submit_logs_witness :
    validateExpense fieldsC2 = true ∧
    (handleSubmit [] 7 none fieldsC2 true [] 2 dbC2e).logs =
      dbC2e.logs ++ [{ expense_id := (none : Option Nat).getD 2,
                       status := ExpenseStatus.submitted, changed_by := 7,
                       notes := some "Expense submitted for review" }] := by
  refine ⟨by decide, ?_⟩
  exact (C2_only_form_submit_logs [] 7 Role.manager 0 0 2 "" "" dbC2e fieldsC2
    none [] (by decide) rfl).2.2.2

/-- Fixture: a submitted expense whose submit was logged. -/
def expC2 : Expense :=
  { id := 1, user_id := 7, title := "Team lunch", amount := 500,
    category := "Food & Dining", expense_date := "2026-10-01",
    status := ExpenseStatus.submitted }

def logC2 : StatusLog :=
  { expense_id := 1, status := ExpenseStatus.submitted, changed_by := 7,
    notes := some "Expense submitted for review" }

def dbC2 : Db := { expenses := [expC2], logs := [logC2], files := [] }

/-- Claim C2 counterexample: a manager approval run appends no
StatusLog row — the log table is unchanged (zero rows appended, not
exactly one), and the most recent log's status (`submitted`) differs
from the expense's new status (`manager_approved`). -/
theorem C2_approve_appends_no_log :
    (approveMutation [((2 : UserId), Role.manager)] 2 Role.manager 5 1 dbC2).logs
      = dbC2.logs ∧
    ((approveMutation [((2 : UserId), Role.manager)] 2 Role.manager 5 1 dbC2).expenses.map
      Expense.status = [ExpenseStatus.manager_approved]) ∧
    dbC2.logs.getLast? = some logC2 ∧
    logC2.status ≠ ExpenseStatus.manager_approved := by
  refine ⟨rfl, rfl, rfl, by decide⟩

/-! ### Claim C3 -/

/-- Fixture: an expense that already reached the terminal status paid. -/
def expC3 : Expense :=
  { id := 1, user_id := 7, title := "Team lunch", amount := 500,
    category := "Food & Dining", expense_date := "2026-10-01",
    status := ExpenseStatus.paid, paid_by := some 4, paid_at := some 9,
    payment_reference := some "TXN123" }

def dbC3 : Db := { expenses := [expC3], logs := [], files := [] }

/-- Claim C3 (code bug): the migration's manager/owner/accounts UPDATE
policies check only the role — contradicting their own names
("Managers can update submitted expenses", ...) — and the client
mutations filter by id only, so a manager approval of an already-paid
expense silently succeeds and moves the status backward to
`manager_approved` instead of failing with InvalidTransition: the
manager UPDATE policy passes for every status. -/
theorem C3_wrong_status_transition_succeeds :
    ((approveMutation [((2 : UserId), Role.manager)] 2 Role.manager 5 1 dbC3).expenses.map
        Expense.status = [ExpenseStatus.manager_approved]) ∧
    (∀ s : ExpenseStatus,
      canUpdateExpense [((2 : UserId), Role.manager)] 2 { expC3 with status := s } = true) := by
  refine ⟨rfl, fun s => ?_⟩
  simp [canUpdateExpense, has_role]

/-! ### Claim C4 -/

/-- Fixture: a submitted expense awaiting manager review. -/
def expC4 : Expense :=
  { id := 1, user_id := 7, title := "Team lunch", amount := 500,
    category := "Food & Dining", expense_date := "2026-10-01",
    status := ExpenseStatus.submitted }

def dbC4 : Db := { expenses := [expC4], logs := [], files := [] }

/-- Claim C4 counterexample: the reject flow goes through with an empty
reason — the reject button passes the textarea content unchecked (its
placeholder reads "optional") — so a manager reject with reason ""
succeeds and leaves a `manager_rejected` expense whose
`manager_rejection_reason` is the empty string. -/
theorem C4_empty_reason_reject_succeeds :
    (rejectMutation [((2 : UserId), Role.manager)] 2 Role.manager "" 1 dbC4).expenses =
      [{ expC4 with status := ExpenseStatus.manager_rejected,
                    manager_rejection_reason := some "" }] := by
  rfl

/-- Claim C4 amended: no non-empty reason is required; `rejectMutation`
stores exactly the reason string it is given (possibly empty) in the
stage's rejection-reason field while setting the rejected status, for
every row the UPDATE policies let the actor modify. -/
theorem C4_reject_stores_given_reason (ur : UserRolesTable) (uid : UserId)
    (reason : String) (i : Nat) (db : Db) (e : Expense)
    (hmem : e ∈ db.expenses) (hid : e.id = i)
    (hupd : canUpdateExpense ur uid e = true) :
    { e with status := ExpenseStatus.manager_rejected,
             manager_rejection_reason := some reason }
      ∈ (rejectMutation ur uid Role.manager reason i db).expenses := by
  unfold rejectMutation
  simp only [rlsUpdateExpenses]
  refine List.mem_map.mpr ⟨e, hmem, ?_⟩
  simp [hid, hupd]

theorem C4_reject_stores_given_reason_witness :
    expC4 ∈ dbC4.expenses ∧ expC4.id = 1 ∧
    canUpdateExpense [((2 : UserId), Role.manager)] 2 expC4 = true ∧
    { expC4 with status := ExpenseStatus.manager_rejected,
                 manager_rejection_reason := some "late claim" }
      ∈ (rejectMutation [((2 : UserId), Role.manager)] 2 Role.manager
          "late claim" 1 dbC4).expenses := by
  refine ⟨by decide, rfl, by decide, ?_⟩
  exact C4_reject_stores_given_reason [((2 : UserId), Role.manager)] 2
    "late claim" 1 dbC4 expC4 (by decide) rfl (by decide)

/-! ### Claim C8 -/

/-- One "Save as Draft" pass through the expense form for the existing
expense `i`: `handleSubmit` with `shouldSubmit = false` and no newly
chosen files. -/
def editDraftOnce (ur : UserRolesTable) (uid : UserId) (i : Nat)
    (f : ExpenseFields) (newId : Nat) (db : Db) : Db :=
  handleSubmit ur uid (some i) f false [] newId db

/-- A single draft save writes the row (status stays `draft`) and then
appends one status-log entry with status `draft`; rows with the edited
id that were draft remain draft. -/
theorem editDraftOnce_step (ur : UserRolesTable) (uid : UserId)
    (i newId : Nat) (f : ExpenseFields) (db : Db)
    (hval : validateExpense f = true)
    (hdraft : ∀ e ∈ db.expenses, e.id = i → e.status = ExpenseStatus.draft) :
    (∀ e ∈ (editDraftOnce ur uid i f newId db).expenses, e.id = i →
        e.status = ExpenseStatus.draft) ∧
    (editDraftOnce ur uid i f newId db).logs = db.logs ++
      [{ expense_id := i, status := ExpenseStatus.draft, changed_by := uid,
         notes := some "Expense saved as draft" }] := by
  unfold editDraftOnce handleSubmit
  rw [if_pos hval]
  simp only [newStatusOf, submitNotes, uploadFiles, Bool.false_eq_true, if_false]
  constructor
  · intro e he hid
    simp only [rlsUpdateExpenses, List.mem_map] at he
    obtain ⟨e₀, he₀, hmap⟩ := he
    by_cases hc : (decide (e₀.id = i) && canUpdateExpense ur uid e₀) = true
    · rw [if_pos hc] at hmap
      subst hmap
      rfl
    · rw [if_neg hc] at hmap
      subst hmap
      exact hdraft e₀ he₀ hid
  · trivial

/-- Claim C8 amended: repeatedly saving a draft through the form never
changes its status — every row with the edited id stays `draft` — but,
contrary to the claim, each save appends exactly one StatusLog entry
(status `draft`), so n edits grow the log by n rows. -/
theorem C8_draft_edits_keep_status_but_append_logs (ur : UserRolesTable)
    (uid : UserId) (i newId : Nat) (f : ExpenseFields) (db : Db) (n : Nat)
    (hval : validateExpense f = true)
    (hdraft : ∀ e ∈ db.expenses, e.id = i → e.status = ExpenseStatus.draft) :
    (∀ e ∈ ((editDraftOnce ur uid i f newId)^[n] db).expenses, e.id = i →
        e.status = ExpenseStatus.draft) ∧
    ((editDraftOnce ur uid i f newId)^[n] db).logs.length = db.logs.length + n := by
  induction n with
  | zero => exact ⟨hdraft, rfl⟩
  | succ k ih =>
    obtain ⟨ihdraft, ihlen⟩ := ih
    rw [Function.iterate_succ_apply']
    obtain ⟨hd, hl⟩ := editDraftOnce_step ur uid i newId f _ hval ihdraft
    refine ⟨hd, ?_⟩
    rw [hl, List.length_append, ihlen, List.length_singleton, Nat.add_assoc]

/-- Fixtures for C8: a draft expense and an edit of its fields. -/
def expC8 : Expense :=
  { id := 1, user_id := 7, title := "Team lunch", amount := 500,
    category := "Food & Dining", expense_date := "2026-10-01",
    status := ExpenseStatus.draft }

def dbC8 : Db := { expenses := [expC8], logs := [], files := [] }

def fieldsC8 : ExpenseFields :=
  { title := "Team brunch", description := "", amount := 600,
    category := "Food & Dining", expense_date := "2026-10-01" }

theorem C8_draft_edits_keep_status_but_append_logs_witness :
    validateExpense fieldsC8 = true ∧
    ((editDraftOnce [((7 : UserId), Role.employee)] 7 1 fieldsC8 2)^[2] dbC8).logs.length
      = dbC8.logs.length + 2 := by
  refine ⟨by decide, ?_⟩
  exact (C8_draft_edits_keep_status_but_append_logs [((7 : UserId), Role.employee)]
    7 1 2 fieldsC8 dbC8 2 (by decide) (by decide)).2

/-- Claim C8 counterexample: a single draft edit keeps the status
`draft` but does generate a StatusLog entry — one row with status
`draft` and the "Expense saved as draft" note. -/
theorem C8_single_edit_appends_log :
    ((editDraftOnce [((7 : UserId), Role.employee)] 7 1 fieldsC8 2 dbC8).expenses.map
        Expense.status = [ExpenseStatus.draft]) ∧
    (editDraftOnce [((7 : UserId), Role.employee)] 7 1 fieldsC8 2 dbC8).logs =
      [{ expense_id := 1, status := ExpenseStatus.draft, changed_by := 7,
         notes := some "Expense saved as draft" }] := by
  exact ⟨rfl, rfl⟩

/-! ### Claim C9 -/

/-- Fixture: an advance request already rejected by a manager. -/
def advC9 : Advance :=
  { id := 1, user_id := 7, amount := 2000,
    reason := "medical emergency expense needed urgently",
    status := AdvanceStatus.rejected, reviewed_by := some 2, reviewed_at := some 3,
    rejection_reason := some "insufficient budget" }

/-- Claim C9 counterexample: the manager/owner UPDATE policy on
`advance_requests` carries no status condition, so a manager approval
run on the already-rejected advance succeeds and moves it back to
`approved` — `rejected` is not terminal at the policy layer. -/
theorem C9_manager_can_update_rejected_advance :
    (approveAdvanceMutation [((2 : UserId), Role.manager)] 2 5 1 [advC9]).map
      Advance.status = [AdvanceStatus.approved] := by
  rfl

/-- Claim C9 amended: the accounts policy restricts accounts-role
updates to advances with status `approved` or `disbursed`, so an
accounts-only actor's disburse attempt on a rejected or still-pending
advance matches no row and leaves the table unchanged; terminality of
`rejected`/`disbursed` against managers and owners is not
policy-enforced (see the counterexample). -/
theorem C9_accounts_disburse_needs_approved (ur : UserRolesTable) (uid : UserId)
    (now : Nat) (ref : String) (i : Nat) (l : List Advance)
    (honly : ∀ r : Role, (uid, r) ∈ ur → r = Role.accounts)
    (hstat : ∀ a ∈ l, a.id = i →
      a.status = AdvanceStatus.rejected ∨ a.status = AdvanceStatus.pending) :
    disburseAdvance ur uid now ref i l = l := by
  have hm : has_role ur uid Role.manager = false := by
    simp only [has_role, decide_eq_false_iff_not]
    intro hmem
    have := honly _ hmem
    simp at this
  have ho : has_role ur uid Role.owner = false := by
    simp only [has_role, decide_eq_false_iff_not]
    intro hmem
    have := honly _ hmem
    simp at this
  unfold disburseAdvance rlsUpdateAdvances
  apply map_eq_self_of_fixed
  intro a ha
  by_cases hid : a.id = i
  · have hupd : canUpdateAdvance ur uid a = false := by
      rcases hstat a ha hid with h | h <;>
        simp [canUpdateAdvance, hm, ho, h]
    simp [hupd]
  · simp [hid]

/-- Fixture for the C9 witness: an accounts-only actor. -/
def urC9 : UserRolesTable := [(4, Role.accounts)]

theorem C9_accounts_disburse_needs_approved_witness :
    (∀ r : Role, ((4 : UserId), r) ∈ urC9 → r = Role.accounts) ∧
    (∀ a ∈ [advC9], a.id = 1 →
      a.status = AdvanceStatus.rejected ∨ a.status = AdvanceStatus.pending) ∧
    disburseAdvance urC9 4 5 "TXN999" 1 [advC9] = [advC9] := by
  have honly : ∀ r : Role, ((4 : UserId), r) ∈ urC9 → r = Role.accounts := by
    intro r hr
    simp [urC9] at hr
    exact hr
  have hstat : ∀ a ∈ [advC9], a.id = 1 →
      a.status = AdvanceStatus.rejected ∨ a.status = AdvanceStatus.pending := by
    decide
  exact ⟨honly, hstat, C9_accounts_disburse_needs_approved urC9 4 5 "TXN999" 1
    [advC9] honly hstat⟩

end OES
